import Mathlib

/-!
# Verification of the PixelHQ bridge session registry and source adapters

Shallow embedding of the core of the bridge:

* `src/session.ts` — the `SessionManager` class (session lifecycle, TTL
  reaping, FIFO spawn/file correlation).  The mutable JS `Map`s and `Set`s
  are modelled as insertion-ordered association lists, mirroring JS
  iteration-order semantics (`Map.set` updates in place or appends,
  `Set.add` appends when absent, deletion preserves order).
* `src/adapters/antigravity.ts` — the Antigravity adapter and the Claude
  Code adapter (both live in that file), together with the event factory
  helpers of `src/pixel-events.ts` and the category tables of
  `src/config.ts`.

Conventions:
* Timestamps (`Date.now()`, `lastEventAt.getTime()`) are integers in ms.
* JS truthiness on optional strings is modelled by `truthyStr`
  (`none` and `some ""` are falsy).
* Event factories omit the random `uuid` field: it carries no information
  the claims are about, and its generation is nondeterministic.
* Emission through the `TypedEmitter` is modelled by returning the list of
  emitted events alongside the new state; operations that emit nothing
  return the state alone.
-/

/-! ## JS collection primitives -/

/-- `Map.get`: first (unique) binding for a key in an insertion-ordered
association list. -/
def jsMapGet {β : Type} : List (String × β) → String → Option β
  | [], _ => none
  | (k', v) :: rest, k => if k' = k then some v else jsMapGet rest k

/-- `Map.set`: replace the binding in place when the key exists, append
otherwise (JS `Map` keeps the original insertion position on update). -/
def jsMapSet {β : Type} : List (String × β) → String → β → List (String × β)
  | [], k, v => [(k, v)]
  | (k', v') :: rest, k, v =>
      if k' = k then (k, v) :: rest else (k', v') :: jsMapSet rest k v

/-- `Map.delete`: remove the binding for a key, preserving the order of the
remaining entries. -/
def jsMapDelete {β : Type} : List (String × β) → String → List (String × β)
  | [], _ => []
  | (k', v) :: rest, k =>
      if k' = k then jsMapDelete rest k else (k', v) :: jsMapDelete rest k

/-- `Set.add`: append when absent, no-op when present. -/
def setAdd (s : List String) (x : String) : List String :=
  if x ∈ s then s else s ++ [x]

/-- `Set.delete`: remove an element, preserving insertion order. -/
def setDelete : List String → String → List String
  | [], _ => []
  | y :: rest, x => if y = x then setDelete rest x else y :: setDelete rest x

/-- JS string truthiness on an optional string: `null`/`undefined` and the
empty string are falsy (`s || null`). -/
def truthyStr : Option String → Option String
  | none => none
  | some s => if s = "" then none else some s

/-- Is `pat` a contiguous sublist of `s`?  Helper for `jsIncludes`. -/
def charsContains : List Char → List Char → Bool
  | [], pat => pat.isEmpty
  | c :: rest, pat => List.isPrefixOf pat (c :: rest) || charsContains rest pat

/-- JS `String.prototype.includes`: substring containment. -/
def jsIncludes (s pat : String) : Bool :=
  charsContains s.data pat.data

/-- JS `String.prototype.trim`: strip whitespace from both ends (modelled
on the character list so that it evaluates inside the kernel). -/
def jsTrim (s : String) : String :=
  ⟨((s.data.dropWhile Char.isWhitespace).reverse.dropWhile
      Char.isWhitespace).reverse⟩

/-! ## Session registry data model (`src/types.ts`, `SessionInfo`) -/

/-- One live session's state (`SessionInfo` in `src/types.ts`). -/
structure SessionInfo where
  sessionId : String
  project : String
  source : String
  lastEventAt : Int
  agentIds : List String
  pendingTaskIds : List String
  pendingSpawnQueue : List String
  agentIdMap : List (String × String)
  deferredAgentFiles : List String
deriving Repr, DecidableEq

/-- The `SessionManager`'s `sessions : Map<string, SessionInfo>`. -/
structure ManagerState where
  sessions : List (String × SessionInfo)
deriving Repr, DecidableEq

/-- Session lifecycle events emitted by the registry through
`createSessionEvent` (`src/pixel-events.ts`); the random `id` and the
wall-clock `timestamp` are omitted. -/
inductive SEvent where
  | started (sessionId project source : String)
  | ended (sessionId project source : String)
deriving Repr, DecidableEq

/-! ## Session registry operations (`src/session.ts`) -/

/-- `if (agentId && !session.agentIds.has(agentId)) session.agentIds.add(agentId)`
(tail of `registerSession`). -/
def addAgentIfTruthy (session : SessionInfo) : Option String → SessionInfo
  | none => session
  | some a =>
      if a ≠ "" ∧ a ∉ session.agentIds then
        { session with agentIds := session.agentIds ++ [a] }
      else session

/-- `SessionManager.registerSession`.  First call for a `sessionId` creates
the state and emits one `Session.started`; later calls only run the
`agentId` insertion.  `now` models `new Date()`. -/
def registerSession (st : ManagerState) (sessionId project : String)
    (agentId : Option String) (source : String) (now : Int) :
    ManagerState × List SEvent :=
  match jsMapGet st.sessions sessionId with
  | none =>
      let session : SessionInfo :=
        { sessionId, project, source, lastEventAt := now,
          agentIds := [], pendingTaskIds := [], pendingSpawnQueue := [],
          agentIdMap := [], deferredAgentFiles := [] }
      let session := addAgentIfTruthy session agentId
      ({ sessions := jsMapSet st.sessions sessionId session },
       [SEvent.started sessionId project source])
  | some session =>
      let session := addAgentIfTruthy session agentId
      ({ sessions := jsMapSet st.sessions sessionId session }, [])

/-- `SessionManager.recordActivity`: bump `lastEventAt`; no-op if unknown. -/
def recordActivity (st : ManagerState) (sessionId : String) (now : Int) :
    ManagerState :=
  match jsMapGet st.sessions sessionId with
  | none => st
  | some session =>
      { sessions := jsMapSet st.sessions sessionId
          { session with lastEventAt := now } }

/-- `SessionManager.removeSession`: delete the state and emit one
`Session.ended` carrying the stored project/source; no-op if absent. -/
def removeSession (st : ManagerState) (sessionId : String) :
    ManagerState × List SEvent :=
  match jsMapGet st.sessions sessionId with
  | none => (st, [])
  | some session =>
      ({ sessions := jsMapDelete st.sessions sessionId },
       [SEvent.ended sessionId session.project session.source])

/-- The `while` loop of `_processDeferredAgentFiles`: while both the
deferred-file queue and the pending-spawn queue are non-empty, shift the
oldest of each and bind file → toolUseId in `agentIdMap`. -/
def drainDeferred :
    List String → List String → List (String × String) →
    List String × List String × List (String × String)
  | f :: ds, t :: ps, m => drainDeferred ds ps (jsMapSet m f t)
  | ds, ps, m => (ds, ps, m)

/-- `SessionManager._processDeferredAgentFiles`. -/
def processDeferredAgentFiles (st : ManagerState) (sessionId : String) :
    ManagerState :=
  match jsMapGet st.sessions sessionId with
  | none => st
  | some session =>
      let r := drainDeferred session.deferredAgentFiles
        session.pendingSpawnQueue session.agentIdMap
      { sessions := jsMapSet st.sessions sessionId
          { session with
            deferredAgentFiles := r.1,
            pendingSpawnQueue := r.2.1,
            agentIdMap := r.2.2 } }

/-- `SessionManager.trackTaskSpawn`: record the pending spawn, push it on
the FIFO spawn queue, then immediately drain deferred agent files. -/
def trackTaskSpawn (st : ManagerState) (sessionId toolUseId : String) :
    ManagerState :=
  match jsMapGet st.sessions sessionId with
  | none => st
  | some session =>
      let session := { session with
        pendingTaskIds := setAdd session.pendingTaskIds toolUseId,
        pendingSpawnQueue := session.pendingSpawnQueue ++ [toolUseId] }
      processDeferredAgentFiles
        { sessions := jsMapSet st.sessions sessionId session } sessionId

/-- `SessionManager.handleTaskResult`: delete from `pendingTaskIds` and
report whether it was pending; `false` for an unknown session. -/
def handleTaskResult (st : ManagerState) (sessionId toolUseId : String) :
    ManagerState × Bool :=
  match jsMapGet st.sessions sessionId with
  | none => (st, false)
  | some session =>
      ({ sessions := jsMapSet st.sessions sessionId
          { session with pendingTaskIds := setDelete session.pendingTaskIds toolUseId } },
       decide (toolUseId ∈ session.pendingTaskIds))

/-- `SessionManager.isTaskPending`. -/
def isTaskPending (st : ManagerState) (sessionId toolUseId : String) : Bool :=
  match jsMapGet st.sessions sessionId with
  | none => false
  | some session => decide (toolUseId ∈ session.pendingTaskIds)

/-- The `for … break` loop of `agentCompleted`: delete the first map entry
whose value equals the completed agent id. -/
def deleteFirstByValue : List (String × String) → String → List (String × String)
  | [], _ => []
  | (k, v) :: rest, target =>
      if v = target then rest else (k, v) :: deleteFirstByValue rest target

/-- `SessionManager.agentCompleted`: drop the agent from the active set and
remove its (reverse-looked-up) entry from `agentIdMap`. -/
def agentCompleted (st : ManagerState) (sessionId agentId : String) :
    ManagerState :=
  match jsMapGet st.sessions sessionId with
  | none => st
  | some session =>
      { sessions := jsMapSet st.sessions sessionId
          { session with
            agentIds := setDelete session.agentIds agentId,
            agentIdMap := deleteFirstByValue session.agentIdMap agentId } }

/-- `SessionManager.correlateAgentFile`: no-op if already mapped; bind to
the oldest pending spawn when one exists; otherwise defer (at most once). -/
def correlateAgentFile (st : ManagerState) (sessionId fileAgentId : String) :
    ManagerState :=
  match jsMapGet st.sessions sessionId with
  | none => st
  | some session =>
      if (jsMapGet session.agentIdMap fileAgentId).isSome then st
      else
        match session.pendingSpawnQueue with
        | toolUseId :: rest =>
            { sessions := jsMapSet st.sessions sessionId
                { session with
                  pendingSpawnQueue := rest,
                  agentIdMap := jsMapSet session.agentIdMap fileAgentId toolUseId } }
        | [] =>
            if fileAgentId ∈ session.deferredAgentFiles then st
            else
              { sessions := jsMapSet st.sessions sessionId
                  { session with deferredAgentFiles :=
                      session.deferredAgentFiles ++ [fileAgentId] } }

/-- `SessionManager.resolveAgentId`: the mapped `toolUseId` when present,
otherwise the given `fileAgentId` unchanged. -/
def resolveAgentId (st : ManagerState) (sessionId fileAgentId : String) :
    String :=
  match jsMapGet st.sessions sessionId with
  | none => fileAgentId
  | some session => (jsMapGet session.agentIdMap fileAgentId).getD fileAgentId

/-- The loop body of `_reapStaleSessions`, iterating over a snapshot of the
entries and removing each stale one via `removeSession`. -/
def reapGo (now ttl : Int) :
    List (String × SessionInfo) → ManagerState → ManagerState × List SEvent
  | [], st => (st, [])
  | (sessionId, info) :: rest, st =>
      if now - info.lastEventAt > ttl then
        let r := removeSession st sessionId
        let r' := reapGo now ttl rest r.1
        (r'.1, r.2 ++ r'.2)
      else reapGo now ttl rest st

/-- `SessionManager._reapStaleSessions`: sweep every session and remove
those idle longer than the TTL (`now - lastEventAt > ttl`, strictly) via
`removeSession`.  `ttl` models `config.sessionTtlMs`. -/
def reapStaleSessions (st : ManagerState) (now ttl : Int) :
    ManagerState × List SEvent :=
  reapGo now ttl st.sessions st

/-! ## Operation words for whole-trace claims -/

/-- The two correlation-relevant calls of claim C1's interleaving. -/
inductive CorrOp where
  | spawn (toolUseId : String)
  | file (fileAgentId : String)
deriving Repr, DecidableEq

/-- Apply one correlation call to the registry. -/
def applyCorrOp (sessionId : String) (st : ManagerState) : CorrOp → ManagerState
  | .spawn t => trackTaskSpawn st sessionId t
  | .file f => correlateAgentFile st sessionId f

/-- `Interleave xs ys zs`: `zs` is an interleaving of `xs` and `ys` that
preserves the relative order of each. -/
inductive Interleave : List CorrOp → List CorrOp → List CorrOp → Prop
  | nil : Interleave [] [] []
  | left {x xs ys zs} : Interleave xs ys zs → Interleave (x :: xs) ys (x :: zs)
  | right {y xs ys zs} : Interleave xs ys zs → Interleave xs (y :: ys) (y :: zs)

/-! ## Helper lemmas -/

theorem jsMapGet_jsMapSet_self {β : Type} (l : List (String × β)) (k : String)
    (v : β) : jsMapGet (jsMapSet l k v) k = some v := by
  induction l with
  | nil => simp [jsMapGet, jsMapSet]
  | cons p rest ih =>
      obtain ⟨k', v'⟩ := p
      by_cases h : k' = k <;> simp [jsMapGet, jsMapSet, h, ih]

theorem interleave_nil_left :
    ∀ {ys zs : List CorrOp}, Interleave [] ys zs → zs = ys := by
  intro ys
  induction ys with
  | nil => intro zs h; cases h; rfl
  | cons y ys ih =>
      intro zs h
      cases h with
      | right h' => rw [ih h']

theorem interleave_nil_right :
    ∀ {xs zs : List CorrOp}, Interleave xs [] zs → zs = xs := by
  intro xs
  induction xs with
  | nil => intro zs h; cases h; rfl
  | cons x xs ih =>
      intro zs h
      cases h with
      | left h' => rw [ih h']

/-- An interleaving of two two-element lists is one of the six merges. -/
theorem interleave_two_two {a b c d : CorrOp} {σ : List CorrOp}
    (h : Interleave [a, b] [c, d] σ) :
    σ = [a, b, c, d] ∨ σ = [a, c, b, d] ∨ σ = [a, c, d, b] ∨
    σ = [c, a, b, d] ∨ σ = [c, a, d, b] ∨ σ = [c, d, a, b] := by
  cases h with
  | left h1 =>
      cases h1 with
      | left h2 =>
          rw [interleave_nil_left h2]
          exact Or.inl rfl
      | right h2 =>
          cases h2 with
          | left h3 =>
              rw [interleave_nil_left h3]
              exact Or.inr (Or.inl rfl)
          | right h3 =>
              cases h3 with
              | left h4 =>
                  rw [interleave_nil_left h4]
                  exact Or.inr (Or.inr (Or.inl rfl))
  | right h1 =>
      cases h1 with
      | left h2 =>
          cases h2 with
          | left h3 =>
              rw [interleave_nil_left h3]
              exact Or.inr (Or.inr (Or.inr (Or.inl rfl)))
          | right h3 =>
              cases h3 with
              | left h4 =>
                  rw [interleave_nil_left h4]
                  exact Or.inr (Or.inr (Or.inr (Or.inr (Or.inl rfl))))
      | right h2 =>
          rw [interleave_nil_right h2]
          exact Or.inr (Or.inr (Or.inr (Or.inr (Or.inr rfl))))

theorem mem_addAgentIfTruthy (info : SessionInfo) (a : Option String)
    (x : String) :
    x ∈ (addAgentIfTruthy info a).agentIds ↔
      (x ∈ info.agentIds ∨ truthyStr a = some x) := by
  cases a with
  | none => simp [addAgentIfTruthy, truthyStr]
  | some s =>
      by_cases hs : s = ""
      · simp [addAgentIfTruthy, truthyStr, hs]
      · by_cases hm : s ∈ info.agentIds
        · simp only [addAgentIfTruthy, truthyStr, if_neg hs, hs, hm,
            not_true_eq_false, and_false, if_false, ne_eq,
            Option.some.injEq]
          exact ⟨Or.inl, fun h => h.elim id (fun he => he ▸ hm)⟩
        · simp [addAgentIfTruthy, truthyStr, hs, hm, List.mem_append,
            eq_comm]

/-! ## Claim theorems for the registry -/

/-- C1: FIFO one-to-one correlation — on a registered session, for every
interleaving of `trackTaskSpawn S1; trackTaskSpawn S2` with
`correlateAgentFile F1; correlateAgentFile F2` (`F1 ≠ F2`), after all four
calls `resolveAgentId F1 = S1` and `resolveAgentId F2 = S2`: the Nth spawn
binds to the Nth distinct file identifier regardless of arrival order. -/
theorem c1_fifo_correlation (sid project source S1 S2 F1 F2 : String)
    (now : Int) (σ : List CorrOp) (hF : F1 ≠ F2)
    (hσ : Interleave [CorrOp.spawn S1, CorrOp.spawn S2]
            [CorrOp.file F1, CorrOp.file F2] σ) :
    resolveAgentId
      (σ.foldl (applyCorrOp sid)
        (registerSession ⟨[]⟩ sid project none source now).1) sid F1 = S1 ∧
    resolveAgentId
      (σ.foldl (applyCorrOp sid)
        (registerSession ⟨[]⟩ sid project none source now).1) sid F2 = S2 := by
  have hF' : F2 ≠ F1 := hF.symm
  rcases interleave_two_two hσ with h | h | h | h | h | h <;> subst h <;>
    simp [List.foldl, applyCorrOp, registerSession, addAgentIfTruthy,
      trackTaskSpawn, processDeferredAgentFiles, correlateAgentFile,
      resolveAgentId, jsMapGet, jsMapSet, drainDeferred, setAdd, hF, hF']

/-- Witness for C1 at concrete inputs, on the interleaving F1 S1 F2 S2. -/
theorem c1_fifo_correlation_witness :
    ("f1" : String) ≠ "f2" ∧
    Interleave [CorrOp.spawn "s1", CorrOp.spawn "s2"]
      [CorrOp.file "f1", CorrOp.file "f2"]
      [CorrOp.file "f1", CorrOp.spawn "s1", CorrOp.file "f2", CorrOp.spawn "s2"] ∧
    resolveAgentId
      ([CorrOp.file "f1", CorrOp.spawn "s1", CorrOp.file "f2",
        CorrOp.spawn "s2"].foldl (applyCorrOp "sess")
        (registerSession ⟨[]⟩ "sess" "proj" none "claude-code" 0).1)
      "sess" "f1" = "s1" ∧
    resolveAgentId
      ([CorrOp.file "f1", CorrOp.spawn "s1", CorrOp.file "f2",
        CorrOp.spawn "s2"].foldl (applyCorrOp "sess")
        (registerSession ⟨[]⟩ "sess" "proj" none "claude-code" 0).1)
      "sess" "f2" = "s2" := by
  refine ⟨by decide, ?_, ?_, ?_⟩
  · exact Interleave.right (Interleave.left
      (Interleave.right (Interleave.left Interleave.nil)))
  · exact (c1_fifo_correlation "sess" "proj" "claude-code" "s1" "s2" "f1" "f2" 0
      _ (by decide)
      (Interleave.right (Interleave.left
        (Interleave.right (Interleave.left Interleave.nil))))).1
  · exact (c1_fifo_correlation "sess" "proj" "claude-code" "s1" "s2" "f1" "f2" 0
      _ (by decide)
      (Interleave.right (Interleave.left
        (Interleave.right (Interleave.left Interleave.nil))))).2

/-- C5: `registerSession` idempotence — the first call for a `sessionId`
emits exactly one `Session.started`; every further call with the same id
emits nothing, leaves `project` and `source` (and all correlation state)
unchanged, and only adds the given (truthy) `agentId` to the active set. -/
theorem c5_registerSession_idempotent (st : ManagerState)
    (sid project source : String) (agentId : Option String) (now : Int) :
    (jsMapGet st.sessions sid = none →
      (registerSession st sid project agentId source now).2
        = [SEvent.started sid project source]) ∧
    (∀ info, jsMapGet st.sessions sid = some info →
      (registerSession st sid project agentId source now).2 = [] ∧
      ∃ info',
        jsMapGet (registerSession st sid project agentId source now).1.sessions
          sid = some info' ∧
        info'.project = info.project ∧
        info'.source = info.source ∧
        info'.lastEventAt = info.lastEventAt ∧
        info'.pendingTaskIds = info.pendingTaskIds ∧
        info'.pendingSpawnQueue = info.pendingSpawnQueue ∧
        info'.agentIdMap = info.agentIdMap ∧
        info'.deferredAgentFiles = info.deferredAgentFiles ∧
        (∀ x, x ∈ info'.agentIds ↔
          (x ∈ info.agentIds ∨ truthyStr agentId = some x))) := by
  constructor
  · intro h
    simp [registerSession, h]
  · intro info h
    refine ⟨by simp [registerSession, h], addAgentIfTruthy info agentId, ?_,
      ?_, ?_, ?_, ?_, ?_, ?_, ?_, mem_addAgentIfTruthy info agentId⟩
    · simp only [registerSession, h]
      exact jsMapGet_jsMapSet_self st.sessions sid (addAgentIfTruthy info agentId)
    all_goals cases agentId with
      | none => rfl
      | some a => simp only [addAgentIfTruthy]; split <;> rfl

/-- Witness for C5 at concrete inputs: one `started` on the first call, no
event on the second call even with different project/source arguments. -/
theorem c5_registerSession_idempotent_witness :
    (registerSession ⟨[]⟩ "s" "p" none "claude-code" 0).2
      = [SEvent.started "s" "p" "claude-code"] ∧
    (registerSession (registerSession ⟨[]⟩ "s" "p" none "claude-code" 0).1
      "s" "other-proj" (some "a1") "antigravity" 7).2 = [] := by
  constructor
  · exact (c5_registerSession_idempotent ⟨[]⟩ "s" "p" "claude-code" none 0).1
      (by decide)
  · exact ((c5_registerSession_idempotent _ "s" "other-proj" "antigravity"
      (some "a1") 7).2 ⟨"s", "p", "claude-code", 0, [], [], [], [], []⟩
      (by decide)).1

/-- C6: for a freshly registered session, `correlateAgentFile F` before any
`trackTaskSpawn` leaves `resolveAgentId F = F`, and a single subsequent
`trackTaskSpawn S` makes `resolveAgentId F = S`. -/
theorem c6_deferred_correlation (sid project source F S : String) (now : Int) :
    resolveAgentId
      (correlateAgentFile
        (registerSession ⟨[]⟩ sid project none source now).1 sid F) sid F = F ∧
    resolveAgentId
      (trackTaskSpawn
        (correlateAgentFile
          (registerSession ⟨[]⟩ sid project none source now).1 sid F) sid S)
      sid F = S := by
  simp [registerSession, addAgentIfTruthy, correlateAgentFile, trackTaskSpawn,
    processDeferredAgentFiles, resolveAgentId, jsMapGet, jsMapSet,
    drainDeferred, setAdd]

/-- C7: duplicate file correlation is a no-op — on a session satisfying the
queue-exclusion invariant (claim C10, true of every reachable state), a
`correlateAgentFile F` call for an `F` that is already mapped or already
deferred changes no state at all, so it never consumes a second pending
spawn slot and `F` stays bound to at most one `toolUseId`. -/
theorem c7_duplicate_correlation_noop (st : ManagerState) (sid F : String)
    (info : SessionInfo) (hs : jsMapGet st.sessions sid = some info)
    (hqe : info.pendingSpawnQueue = [] ∨ info.deferredAgentFiles = [])
    (hF : (jsMapGet info.agentIdMap F).isSome = true ∨
      F ∈ info.deferredAgentFiles) :
    correlateAgentFile st sid F = st := by
  rcases hF with h | h
  · simp [correlateAgentFile, hs, h]
  · have hq : info.pendingSpawnQueue = [] := by
      rcases hqe with h' | h'
      · exact h'
      · rw [h'] at h
        cases h
    by_cases hm : (jsMapGet info.agentIdMap F).isSome
    · simp [correlateAgentFile, hs, hm]
    · simp [correlateAgentFile, hs, hm, hq, h]

/-- Witness for C7 at a concrete state: a session with one deferred file
and an empty spawn queue; re-correlating the deferred file is a no-op. -/
theorem c7_duplicate_correlation_noop_witness :
    jsMapGet
      (correlateAgentFile
        (registerSession ⟨[]⟩ "s" "p" none "claude-code" 0).1 "s" "f").sessions
      "s" = some ⟨"s", "p", "claude-code", 0, [], [], [], [], ["f"]⟩ ∧
    (([] : List String) = [] ∨ (["f"] : List String) = []) ∧
    ((jsMapGet ([] : List (String × String)) "f").isSome = true ∨
      "f" ∈ (["f"] : List String)) ∧
    correlateAgentFile
      (correlateAgentFile
        (registerSession ⟨[]⟩ "s" "p" none "claude-code" 0).1 "s" "f") "s" "f"
      = correlateAgentFile
          (registerSession ⟨[]⟩ "s" "p" none "claude-code" 0).1 "s" "f" := by
  refine ⟨by decide, Or.inl rfl, Or.inr (by decide), ?_⟩
  exact c7_duplicate_correlation_noop _ "s" "f"
    ⟨"s", "p", "claude-code", 0, [], [], [], [], ["f"]⟩
    (by decide) (Or.inl rfl) (Or.inr (by decide))

/-- C8: unknown-key safety — every registry operation on a `sessionId` the
registry has no record of is a no-op or identity and emits nothing:
`recordActivity`, `removeSession`, `trackTaskSpawn`, `correlateAgentFile`
and `agentCompleted` change nothing, `handleTaskResult` and `isTaskPending`
return `false`, and `resolveAgentId` returns the given id unchanged. -/
theorem c8_unknown_session_safety (st : ManagerState) (sid x : String)
    (now : Int) (h : jsMapGet st.sessions sid = none) :
    recordActivity st sid now = st ∧
    removeSession st sid = (st, []) ∧
    trackTaskSpawn st sid x = st ∧
    correlateAgentFile st sid x = st ∧
    agentCompleted st sid x = st ∧
    handleTaskResult st sid x = (st, false) ∧
    isTaskPending st sid x = false ∧
    resolveAgentId st sid x = x := by
  simp [recordActivity, removeSession, trackTaskSpawn, correlateAgentFile,
    agentCompleted, handleTaskResult, isTaskPending, resolveAgentId, h]

/-- Witness for C8: operations against a session id absent from a
non-empty registry leave the registry untouched. -/
theorem c8_unknown_session_safety_witness :
    jsMapGet (registerSession ⟨[]⟩ "s" "p" none "claude-code" 0).1.sessions
      "ghost" = none ∧
    recordActivity (registerSession ⟨[]⟩ "s" "p" none "claude-code" 0).1
      "ghost" 99 = (registerSession ⟨[]⟩ "s" "p" none "claude-code" 0).1 ∧
    resolveAgentId (registerSession ⟨[]⟩ "s" "p" none "claude-code" 0).1
      "ghost" "fx" = "fx" := by
  refine ⟨by decide, ?_, ?_⟩
  · exact (c8_unknown_session_safety _ "ghost" "fx" 99 (by decide)).1
  · exact (c8_unknown_session_safety _ "ghost" "fx" 99 (by decide)).2.2.2.2.2.2.2

/-! ## Whole-trace operation words and the queue-exclusion invariant -/

/-- Every mutating public operation of the `SessionManager`, for claims
quantifying over arbitrary call sequences. -/
inductive MOp where
  | register (sessionId project : String) (agentId : Option String)
      (source : String) (now : Int)
  | activity (sessionId : String) (now : Int)
  | remove (sessionId : String)
  | spawn (sessionId toolUseId : String)
  | taskResult (sessionId toolUseId : String)
  | agentDone (sessionId agentId : String)
  | correlate (sessionId fileAgentId : String)
  | reap (now ttl : Int)
deriving Repr, DecidableEq

/-- Apply one registry operation (discarding emitted events / booleans). -/
def applyMOp (st : ManagerState) : MOp → ManagerState
  | .register sid p a src now => (registerSession st sid p a src now).1
  | .activity sid now => recordActivity st sid now
  | .remove sid => (removeSession st sid).1
  | .spawn sid t => trackTaskSpawn st sid t
  | .taskResult sid t => (handleTaskResult st sid t).1
  | .agentDone sid a => agentCompleted st sid a
  | .correlate sid f => correlateAgentFile st sid f
  | .reap now ttl => (reapStaleSessions st now ttl).1

/-- Run a call sequence against the initially empty registry. -/
def runMOps (ops : List MOp) : ManagerState := ops.foldl applyMOp ⟨[]⟩

/-- The C10 invariant: no stored session has both a non-empty pending
spawn queue and a non-empty deferred-file queue. -/
def QueueExclusion (st : ManagerState) : Prop :=
  ∀ q ∈ st.sessions, q.2.pendingSpawnQueue = [] ∨ q.2.deferredAgentFiles = []

theorem mem_jsMapSet {β : Type} {l : List (String × β)} {k : String} {v : β}
    {q : String × β} (hq : q ∈ jsMapSet l k v) : q = (k, v) ∨ q ∈ l := by
  induction l with
  | nil =>
      simp only [jsMapSet, List.mem_singleton] at hq
      exact Or.inl hq
  | cons p rest ih =>
      obtain ⟨k', v'⟩ := p
      by_cases h : k' = k
      · simp only [jsMapSet, if_pos h, List.mem_cons] at hq
        rcases hq with hq | hq
        · exact Or.inl hq
        · exact Or.inr (List.mem_cons_of_mem _ hq)
      · simp only [jsMapSet, if_neg h, List.mem_cons] at hq
        rcases hq with hq | hq
        · exact Or.inr (hq ▸ List.mem_cons_self _ _)
        · rcases ih hq with hq' | hq'
          · exact Or.inl hq'
          · exact Or.inr (List.mem_cons_of_mem _ hq')

theorem mem_jsMapDelete {β : Type} {l : List (String × β)} {k : String}
    {q : String × β} (hq : q ∈ jsMapDelete l k) : q ∈ l := by
  induction l with
  | nil =>
      simp only [jsMapDelete] at hq
      cases hq
  | cons p rest ih =>
      obtain ⟨k', v'⟩ := p
      by_cases h : k' = k
      · simp only [jsMapDelete, if_pos h] at hq
        exact List.mem_cons_of_mem _ (ih hq)
      · simp only [jsMapDelete, if_neg h, List.mem_cons] at hq
        rcases hq with hq | hq
        · exact hq ▸ List.mem_cons_self _ _
        · exact List.mem_cons_of_mem _ (ih hq)

theorem jsMapGet_mem {β : Type} {l : List (String × β)} {k : String} {v : β}
    (h : jsMapGet l k = some v) : (k, v) ∈ l := by
  induction l with
  | nil => simp [jsMapGet] at h
  | cons p rest ih =>
      obtain ⟨k', v'⟩ := p
      by_cases hk : k' = k
      · subst hk
        have hv : v' = v := by simpa [jsMapGet] using h
        subst hv
        exact List.mem_cons_self _ _
      · simp only [jsMapGet, if_neg hk] at h
        exact List.mem_cons_of_mem _ (ih h)

/-- Setting the same key twice keeps only the second value. -/
theorem jsMapSet_jsMapSet {β : Type} (l : List (String × β)) (k : String)
    (v w : β) : jsMapSet (jsMapSet l k v) k w = jsMapSet l k w := by
  induction l with
  | nil => simp [jsMapSet]
  | cons p rest ih =>
      obtain ⟨k', v'⟩ := p
      by_cases h : k' = k <;> simp [jsMapSet, h, ih]

/-- `_processDeferredAgentFiles` leaves one of the two queues empty. -/
theorem drainDeferred_excl : ∀ (d p : List String) (m : List (String × String)),
    (drainDeferred d p m).2.1 = [] ∨ (drainDeferred d p m).1 = [] := by
  intro d
  induction d with
  | nil => intro p m; right; rfl
  | cons f ds ih =>
      intro p m
      cases p with
      | nil => left; rfl
      | cons t ps => simpa [drainDeferred] using ih ps (jsMapSet m f t)

@[simp] theorem addAgentIfTruthy_pendingSpawnQueue (s : SessionInfo)
    (a : Option String) :
    (addAgentIfTruthy s a).pendingSpawnQueue = s.pendingSpawnQueue := by
  cases a with
  | none => rfl
  | some x =>
      simp only [addAgentIfTruthy]
      split <;> rfl

@[simp] theorem addAgentIfTruthy_deferredAgentFiles (s : SessionInfo)
    (a : Option String) :
    (addAgentIfTruthy s a).deferredAgentFiles = s.deferredAgentFiles := by
  cases a with
  | none => rfl
  | some x =>
      simp only [addAgentIfTruthy]
      split <;> rfl

theorem queueExclusion_set {st : ManagerState} {sid : String}
    {info : SessionInfo} (h : QueueExclusion st)
    (hi : info.pendingSpawnQueue = [] ∨ info.deferredAgentFiles = []) :
    QueueExclusion ⟨jsMapSet st.sessions sid info⟩ := by
  intro q hq
  rcases mem_jsMapSet hq with hq' | hq'
  · rw [hq']
    exact hi
  · exact h q hq'

theorem queueExclusion_removeSession (st : ManagerState) (sid : String)
    (h : QueueExclusion st) : QueueExclusion (removeSession st sid).1 := by
  unfold removeSession
  cases hg : jsMapGet st.sessions sid with
  | none => simpa using h
  | some info =>
      intro q hq
      exact h q (mem_jsMapDelete hq)

theorem queueExclusion_reapGo (now ttl : Int) :
    ∀ (entries : List (String × SessionInfo)) (st : ManagerState),
      QueueExclusion st → QueueExclusion (reapGo now ttl entries st).1 := by
  intro entries
  induction entries with
  | nil => intro st h; exact h
  | cons p rest ih =>
      obtain ⟨sid, info⟩ := p
      intro st h
      by_cases hc : now - info.lastEventAt > ttl
      · simpa [reapGo, hc] using ih _ (queueExclusion_removeSession st sid h)
      · simpa [reapGo, hc] using ih st h

/-- One registry operation preserves queue exclusion. -/
theorem queueExclusion_apply (st : ManagerState) (op : MOp)
    (h : QueueExclusion st) : QueueExclusion (applyMOp st op) := by
  cases op with
  | register sid p a src now =>
      simp only [applyMOp, registerSession]
      cases hg : jsMapGet st.sessions sid with
      | none =>
          exact queueExclusion_set h (Or.inl (by simp))
      | some info =>
          refine queueExclusion_set h ?_
          rcases h (sid, info) (jsMapGet_mem hg) with h' | h'
          · exact Or.inl (by rw [addAgentIfTruthy_pendingSpawnQueue]; exact h')
          · exact Or.inr (by rw [addAgentIfTruthy_deferredAgentFiles]; exact h')
  | activity sid now =>
      simp only [applyMOp, recordActivity]
      cases hg : jsMapGet st.sessions sid with
      | none => exact h
      | some info =>
          exact queueExclusion_set h (h (sid, info) (jsMapGet_mem hg))
  | remove sid => exact queueExclusion_removeSession st sid h
  | spawn sid t =>
      simp only [applyMOp, trackTaskSpawn]
      cases hg : jsMapGet st.sessions sid with
      | none => exact h
      | some info =>
          simp only [processDeferredAgentFiles, jsMapGet_jsMapSet_self,
            jsMapSet_jsMapSet]
          exact queueExclusion_set h
            ((drainDeferred_excl _ _ _).imp id id)
  | taskResult sid t =>
      simp only [applyMOp, handleTaskResult]
      cases hg : jsMapGet st.sessions sid with
      | none => exact h
      | some info =>
          exact queueExclusion_set h (h (sid, info) (jsMapGet_mem hg))
  | agentDone sid a =>
      simp only [applyMOp, agentCompleted]
      cases hg : jsMapGet st.sessions sid with
      | none => exact h
      | some info =>
          exact queueExclusion_set h (h (sid, info) (jsMapGet_mem hg))
  | correlate sid f =>
      simp only [applyMOp, correlateAgentFile]
      cases hg : jsMapGet st.sessions sid with
      | none => exact h
      | some info =>
          by_cases hm : (jsMapGet info.agentIdMap f).isSome
          · simpa [hm] using h
          · simp only [hm, if_false]
            cases hq : info.pendingSpawnQueue with
            | cons tu rest =>
                refine queueExclusion_set h (Or.inr ?_)
                show info.deferredAgentFiles = []
                rcases h (sid, info) (jsMapGet_mem hg) with h' | h'
                · rw [hq] at h'
                  cases h'
                · exact h'
            | nil =>
                by_cases hd : f ∈ info.deferredAgentFiles
                · simpa [hd] using h
                · simp only [hd, if_false]
                  exact queueExclusion_set h (Or.inl rfl)
  | reap now ttl =>
      exact queueExclusion_reapGo now ttl st.sessions st h

/-- Queue exclusion holds after any call sequence from the empty registry. -/
theorem queueExclusion_run :
    ∀ (ops : List MOp) (st : ManagerState),
      QueueExclusion st → QueueExclusion (ops.foldl applyMOp st)
  | [], _, h => h
  | op :: ops, st, h => queueExclusion_run ops _ (queueExclusion_apply st op h)

/-- C10: implicit queue-exclusion invariant — after any sequence of
`SessionManager` operations from the empty registry, no session ever has
both a non-empty `pendingSpawnQueue` and a non-empty `deferredAgentFiles`:
`trackTaskSpawn` drains deferred files against available spawn slots before
returning, and `correlateAgentFile` defers only when the spawn queue is
empty. -/
theorem c10_queue_exclusion (ops : List MOp) (sid : String)
    (info : SessionInfo)
    (h : jsMapGet (runMOps ops).sessions sid = some info) :
    info.pendingSpawnQueue = [] ∨ info.deferredAgentFiles = [] := by
  have h0 : QueueExclusion ⟨[]⟩ := by
    intro q hq
    cases hq
  exact queueExclusion_run ops ⟨[]⟩ h0 (sid, info) (jsMapGet_mem h)

/-- Witness for C10 on a concrete trace: register, spawn, and two file
correlations (the second of which is deferred). -/
theorem c10_queue_exclusion_witness :
    jsMapGet (runMOps [MOp.register "s" "p" none "claude-code" 0,
        MOp.spawn "s" "t1", MOp.correlate "s" "f1",
        MOp.correlate "s" "f2"]).sessions "s"
      = some ⟨"s", "p", "claude-code", 0, [], ["t1"], [],
          [("f1", "t1")], ["f2"]⟩ ∧
    ((⟨"s", "p", "claude-code", 0, [], ["t1"], [], [("f1", "t1")],
        ["f2"]⟩ : SessionInfo).pendingSpawnQueue = [] ∨
      (⟨"s", "p", "claude-code", 0, [], ["t1"], [], [("f1", "t1")],
        ["f2"]⟩ : SessionInfo).deferredAgentFiles = []) := by
  refine ⟨by decide, ?_⟩
  exact c10_queue_exclusion [MOp.register "s" "p" none "claude-code" 0,
    MOp.spawn "s" "t1", MOp.correlate "s" "f1", MOp.correlate "s" "f2"]
    "s" _ (by decide)

/-! ## TTL reaping (claim C9) -/

/-- Remove every entry whose key occurs in `ks`. -/
def removeKeys {β : Type} : List (String × β) → List String → List (String × β)
  | [], _ => []
  | (k, v) :: rest, ks =>
      if k ∈ ks then removeKeys rest ks else (k, v) :: removeKeys rest ks

theorem removeKeys_nil {β : Type} (l : List (String × β)) :
    removeKeys l [] = l := by
  induction l with
  | nil => rfl
  | cons p rest ih =>
      obtain ⟨k, v⟩ := p
      simp [removeKeys, ih]

theorem removeKeys_cons_ne {β : Type} (ks : List String) :
    ∀ (l : List (String × β)) (x : String), x ∉ l.map Prod.fst →
      removeKeys l (x :: ks) = removeKeys l ks := by
  intro l
  induction l with
  | nil => intro x _; rfl
  | cons p rest ih =>
      obtain ⟨k, v⟩ := p
      intro x hx
      have hkx : k ≠ x := by
        intro he
        exact hx (by simp [he])
      have hx' : x ∉ rest.map Prod.fst := by
        intro hm
        exact hx (by simp [hm])
      by_cases hks : k ∈ ks
      · simp [removeKeys, hks, ih x hx', List.mem_cons, hkx]
      · simp [removeKeys, hks, ih x hx', List.mem_cons, hkx]

theorem removeKeys_delete {β : Type} (k : String) (ks : List String) :
    ∀ l : List (String × β),
      removeKeys (jsMapDelete l k) ks = removeKeys l (k :: ks) := by
  intro l
  induction l with
  | nil => rfl
  | cons p rest ih =>
      obtain ⟨k0, v⟩ := p
      by_cases h0 : k0 = k
      · simp [jsMapDelete, removeKeys, h0, ih, List.mem_cons]
      · by_cases hks : k0 ∈ ks
        · simp [jsMapDelete, removeKeys, h0, hks, ih, List.mem_cons]
        · simp [jsMapDelete, removeKeys, h0, hks, ih, List.mem_cons]

theorem jsMapGet_jsMapDelete_ne {β : Type} (k k' : String) (h : k ≠ k') :
    ∀ l : List (String × β), jsMapGet (jsMapDelete l k') k = jsMapGet l k := by
  intro l
  induction l with
  | nil => rfl
  | cons p rest ih =>
      obtain ⟨k0, v⟩ := p
      by_cases h0 : k0 = k'
      · simp [jsMapDelete, jsMapGet, h0, Ne.symm h, ih]
      · by_cases hk : k0 = k <;>
          simp [jsMapDelete, jsMapGet, h0, hk, h, Ne.symm h, ih]

theorem nodup_jsMapGet {β : Type} :
    ∀ {l : List (String × β)}, (l.map Prod.fst).Nodup →
      ∀ p ∈ l, jsMapGet l p.1 = some p.2 := by
  intro l
  induction l with
  | nil => intro _ p hp; cases hp
  | cons q rest ih =>
      obtain ⟨k, v⟩ := q
      intro hnd p hp
      rcases List.mem_cons.mp hp with rfl | hp'
      · simp [jsMapGet]
      · have hne : k ≠ p.1 := by
          intro he
          apply (List.nodup_cons.mp hnd).1
          rw [he]
          exact List.mem_map.mpr ⟨p, hp', rfl⟩
        simp only [jsMapGet, if_neg hne]
        exact ih (List.nodup_cons.mp hnd).2 p hp'

theorem removeKeys_filter_keys {β : Type} (P : String × β → Bool) :
    ∀ l : List (String × β), (l.map Prod.fst).Nodup →
      removeKeys l ((l.filter P).map Prod.fst)
        = l.filter (fun p => !(P p)) := by
  intro l
  induction l with
  | nil => intro _; rfl
  | cons p rest ih =>
      obtain ⟨k, v⟩ := p
      intro hnd
      have hk : k ∉ rest.map Prod.fst := (List.nodup_cons.mp hnd).1
      have hndr := (List.nodup_cons.mp hnd).2
      by_cases hP : P (k, v)
      · rw [List.filter_cons_of_pos hP, List.map_cons]
        have h1 : removeKeys ((k, v) :: rest)
            (k :: (rest.filter P).map Prod.fst)
            = removeKeys rest (k :: (rest.filter P).map Prod.fst) := by
          simp [removeKeys]
        rw [h1, removeKeys_cons_ne _ rest k hk, ih hndr,
          List.filter_cons_of_neg (by simp [hP])]
      · rw [List.filter_cons_of_neg (by simpa using hP)]
        have hkf : k ∉ (rest.filter P).map Prod.fst := by
          intro hm
          rcases List.mem_map.mp hm with ⟨q, hq, hq1⟩
          exact hk (List.mem_map.mpr ⟨q, List.mem_of_mem_filter hq, hq1⟩)
        have h1 : removeKeys ((k, v) :: rest) ((rest.filter P).map Prod.fst)
            = (k, v) :: removeKeys rest ((rest.filter P).map Prod.fst) := by
          simp [removeKeys, hkf]
        rw [h1, ih hndr, List.filter_cons_of_pos (by simpa using hP)]

/-- Specification of the reaper loop: starting from a snapshot of the
entries (with unique keys, as in a JS `Map`), it removes exactly the stale
entries and emits one `Session.ended` per removed session, in order. -/
theorem reapGo_spec (now ttl : Int) :
    ∀ (entries : List (String × SessionInfo)) (st : ManagerState),
      (∀ p ∈ entries, jsMapGet st.sessions p.1 = some p.2) →
      (entries.map Prod.fst).Nodup →
      reapGo now ttl entries st
        = (⟨removeKeys st.sessions
              ((entries.filter
                (fun p => decide (now - p.2.lastEventAt > ttl))).map
                Prod.fst)⟩,
           (entries.filter
              (fun p => decide (now - p.2.lastEventAt > ttl))).map
             (fun p => SEvent.ended p.1 p.2.project p.2.source)) := by
  intro entries
  induction entries with
  | nil =>
      intro st _ _
      simp only [reapGo, List.filter_nil, List.map_nil, removeKeys_nil]
  | cons p rest ih =>
      obtain ⟨sid, info⟩ := p
      intro st hall hnd
      have hget : jsMapGet st.sessions sid = some info :=
        hall (sid, info) (List.mem_cons_self _ _)
      have hsid : sid ∉ rest.map Prod.fst := (List.nodup_cons.mp hnd).1
      have hndr : (rest.map Prod.fst).Nodup := (List.nodup_cons.mp hnd).2
      by_cases hc : now - info.lastEventAt > ttl
      · have hrest : ∀ q ∈ rest,
            jsMapGet (jsMapDelete st.sessions sid) q.1 = some q.2 := by
          intro q hq
          have hne : q.1 ≠ sid := by
            intro he
            apply hsid
            rw [← he]
            exact List.mem_map.mpr ⟨q, hq, rfl⟩
          rw [jsMapGet_jsMapDelete_ne q.1 sid hne]
          exact hall q (List.mem_cons_of_mem _ hq)
        have hrec := ih ⟨jsMapDelete st.sessions sid⟩ hrest hndr
        simp only [reapGo, if_pos hc, removeSession, hget]
        rw [hrec, List.filter_cons_of_pos (by simpa using hc),
          List.map_cons, List.map_cons, ← removeKeys_delete]
        rfl
      · have hrec := ih st
          (fun q hq => hall q (List.mem_cons_of_mem _ hq)) hndr
        simp only [reapGo, if_neg hc]
        rw [hrec, List.filter_cons_of_neg (by simpa using hc)]

/-- C9: TTL reaping — one sweep removes exactly the sessions whose idle
age `now - lastEventAt` strictly exceeds the TTL, emitting exactly one
`Session.ended` (carrying the stored project/source, i.e. the
`removeSession` payload) per removed session; a session whose idle age is
within the TTL is never removed by the sweep.  The hypothesis records that
registry keys are unique, which holds by construction for a JS `Map`. -/
theorem c9_ttl_reaping (st : ManagerState) (now ttl : Int)
    (hnd : (st.sessions.map Prod.fst).Nodup) :
    (reapStaleSessions st now ttl).1.sessions
      = st.sessions.filter
          (fun p => !(decide (now - p.2.lastEventAt > ttl))) ∧
    (reapStaleSessions st now ttl).2
      = (st.sessions.filter
          (fun p => decide (now - p.2.lastEventAt > ttl))).map
          (fun p => SEvent.ended p.1 p.2.project p.2.source) := by
  have h := reapGo_spec now ttl st.sessions st (nodup_jsMapGet hnd) hnd
  unfold reapStaleSessions
  rw [h]
  exact ⟨removeKeys_filter_keys _ st.sessions hnd, rfl⟩

/-- Witness for C9: a registry with one stale and one fresh session; the
sweep at `now = 1000`, `ttl = 300` removes exactly the stale one and emits
exactly its `Session.ended`. -/
theorem c9_ttl_reaping_witness :
    (((ManagerState.mk [("a", ⟨"a", "p", "claude-code", 0, [], [], [], [], []⟩),
        ("b", ⟨"b", "q", "codex", 900, [], [], [], [], []⟩)]).sessions.map
        Prod.fst).Nodup) ∧
    (reapStaleSessions
      (ManagerState.mk [("a", ⟨"a", "p", "claude-code", 0, [], [], [], [], []⟩),
        ("b", ⟨"b", "q", "codex", 900, [], [], [], [], []⟩)]) 1000 300).1.sessions
      = [("b", ⟨"b", "q", "codex", 900, [], [], [], [], []⟩)] ∧
    (reapStaleSessions
      (ManagerState.mk [("a", ⟨"a", "p", "claude-code", 0, [], [], [], [], []⟩),
        ("b", ⟨"b", "q", "codex", 900, [], [], [], [], []⟩)]) 1000 300).2
      = [SEvent.ended "a" "p" "claude-code"] := by
  refine ⟨by decide, ?_, ?_⟩
  · rw [(c9_ttl_reaping _ 1000 300 (by decide)).1]
    decide
  · rw [(c9_ttl_reaping _ 1000 300 (by decide)).2]
    decide

/-! ## Normalized events and factories (`src/pixel-events.ts`) -/

/-- `TokenUsage` (`src/types.ts`). -/
structure TokenUsage where
  input : Nat
  output : Nat
  cacheRead : Option Nat := none
  cacheWrite : Option Nat := none
deriving Repr, DecidableEq

/-- The `PixelEvent` discriminated union (`src/types.ts`), omitting the
random `uuid` field of each event.  Optional fields are `none` exactly when
the JS object omits them (the factories spread `...(x && { x })`). -/
inductive PixelEvent where
  | activity (sessionId : String) (agentId : Option String)
      (timestamp : String) (action : String) (tokens : Option TokenUsage)
  | tool (sessionId : String) (agentId : Option String) (timestamp : String)
      (tool : String) (detail : Option String) (status : String)
      (toolUseId : String) (context : Option String)
  | agent (sessionId : String) (agentId : Option String) (timestamp : String)
      (action : String) (agentRole : Option String)
  | error (sessionId : String) (agentId : Option String) (timestamp : String)
      (severity : String)
  | summary (sessionId : String) (timestamp : String)
deriving Repr, DecidableEq

/-- `createActivityEvent`: `...(agentId && { agentId })`,
`...(tokens && { tokens })`. -/
def createActivityEvent (sessionId : String) (agentId : Option String)
    (timestamp action : String) (tokens : Option TokenUsage) : PixelEvent :=
  .activity sessionId (truthyStr agentId) timestamp action tokens

/-- `createToolEvent`: truthiness-filtered optional `agentId`, `detail`,
`context`. -/
def createToolEvent (sessionId : String) (agentId : Option String)
    (timestamp tool : String) (detail : Option String)
    (status toolUseId : String) (context : Option String) : PixelEvent :=
  .tool sessionId (truthyStr agentId) timestamp tool (truthyStr detail)
    status toolUseId (truthyStr context)

/-- `createAgentEvent`. -/
def createAgentEvent (sessionId : String) (agentId : Option String)
    (timestamp action : String) (agentRole : Option String) : PixelEvent :=
  .agent sessionId (truthyStr agentId) timestamp action (truthyStr agentRole)

/-- `createErrorEvent`. -/
def createErrorEvent (sessionId : String) (agentId : Option String)
    (timestamp severity : String) : PixelEvent :=
  .error sessionId (truthyStr agentId) timestamp severity

/-- `createSummaryEvent`. -/
def createSummaryEvent (sessionId timestamp : String) : PixelEvent :=
  .summary sessionId timestamp

/-- `toBasename` (`src/pixel-events.ts`): final `/`-separated segment;
`null` for a missing/empty input or a trailing-slash-only result. -/
def toBasename : Option String → Option String
  | none => none
  | some s =>
      if s = "" then none
      else
        let last := (s.splitOn "/").getLastD ""
        if last = "" then none else some last

/-! ## Raw JSONL record model (`src/types.ts`) -/

/-- The tool-invocation `input : Record<string, unknown>` restricted to the
keys the adapters read; a `none` field models an absent key. -/
structure ToolInput where
  file_path : Option String := none
  target_file : Option String := none
  TargetFile : Option String := none
  AbsolutePath : Option String := none
  CommandLine : Option String := none
  command : Option String := none
  description : Option String := none
  pattern : Option String := none
  subagent_type : Option String := none
  notebook_path : Option String := none
  type : Option String := none
  todos : Option Nat := none
deriving Repr, DecidableEq

/-- `RawUsage` (`src/types.ts`). -/
structure RawUsage where
  input_tokens : Option Nat := none
  output_tokens : Option Nat := none
  cache_read_input_tokens : Option Nat := none
  cache_creation_input_tokens : Option Nat := none
deriving Repr, DecidableEq

/-- `RawContentBlock` (`src/types.ts`).  `todos` of a `TodoWrite` input is
modelled by its length (the only thing the adapter reads). -/
inductive RawContentBlock where
  | thinking (thinking : String)
  | text (text : String)
  | tool_use (id : String) (name : String) (input : ToolInput)
  | tool_result (tool_use_id : String) (content : Option String)
      (is_error : Option Bool)
deriving Repr, DecidableEq

/-- `RawMessage.content`: `RawContentBlock[] | string`. -/
inductive RawContent where
  | str (s : String)
  | blocks (blocks : List RawContentBlock)
deriving Repr, DecidableEq

/-- `RawMessage` (`src/types.ts`). -/
structure RawMessage where
  content : Option RawContent := none
  usage : Option RawUsage := none
deriving Repr, DecidableEq

/-- `RawJsonlEvent` (`src/types.ts`): a parsed log record with the injected
session/agent identifiers. -/
structure RawJsonlEvent where
  type : String
  timestamp : Option String := none
  message : Option RawMessage := none
  userType : Option String := none
  _sessionId : String
  _agentId : Option String := none
deriving Repr, DecidableEq

/-- The shared tool-result error heuristic:
`block.is_error === true || (typeof block.content === 'string' && block.content.includes('Error'))`
(the Claude Code form; the Antigravity form tests `block.is_error ||`,
which coincides on `boolean | undefined` values). -/
def isErrorHeuristic (c : Option String) (ie : Option Bool) : Bool :=
  (ie == some true) ||
    (match c with
     | some s => jsIncludes s "Error"
     | none => false)

/-- JS truthiness of `message?.content` (`undefined` and `""` are falsy,
any array — even empty — is truthy). -/
def contentTruthy : Option RawContent → Bool
  | none => false
  | some (.str s) => decide (s ≠ "")
  | some (.blocks _) => true

/-! ## Claude Code adapter (`src/adapters/antigravity.ts`, second unit) -/

namespace ClaudeCode

/-- `TOOL_TO_CATEGORY` (`src/config.ts`): tool name → (category, detail). -/
def TOOL_TO_CATEGORY : String → Option (String × String)
  | "Read" => some ("file_read", "read")
  | "Write" => some ("file_write", "write")
  | "Edit" => some ("file_write", "edit")
  | "Bash" => some ("terminal", "bash")
  | "Grep" => some ("search", "grep")
  | "Glob" => some ("search", "glob")
  | "WebFetch" => some ("search", "web_fetch")
  | "WebSearch" => some ("search", "web_search")
  | "Task" => some ("spawn_agent", "task")
  | "TodoWrite" => some ("plan", "todo")
  | "EnterPlanMode" => some ("plan", "enter_plan")
  | "ExitPlanMode" => some ("plan", "exit_plan")
  | "AskUserQuestion" => some ("communicate", "ask_user")
  | "NotebookEdit" => some ("notebook", "notebook")
  | _ => none

/-- `extractSafeContext` of the Claude Code adapter: a basename, a
user-supplied description, a pattern, a subagent type, or an item count —
never the raw command line. -/
def extractSafeContext (toolName : String) (input : ToolInput) :
    Option String :=
  match toolName with
  | "Read" => toBasename input.file_path
  | "Write" => toBasename input.file_path
  | "Edit" => toBasename input.file_path
  | "Bash" => truthyStr input.description
  | "Grep" => truthyStr input.pattern
  | "Glob" => truthyStr input.pattern
  | "Task" => truthyStr input.subagent_type
  | "TodoWrite" => input.todos.map (fun n => toString n ++ " items")
  | "NotebookEdit" => toBasename input.notebook_path
  | _ => none

/-- `buildToolStartedEvent` of the Claude Code adapter; unmapped tool names
fall back to `{category: other, detail: <verbatim tool name>}`. -/
def buildToolStartedEvent (sessionId : String) (agentId : Option String)
    (timestamp id name : String) (input : ToolInput) : PixelEvent :=
  let mapping := (TOOL_TO_CATEGORY name).getD ("other", name)
  createToolEvent sessionId agentId timestamp mapping.1 (some mapping.2)
    "started" id (extractSafeContext name input)

/-- `extractTokens` of the Claude Code adapter (with cache fields, which
are included only when truthy, i.e. present and non-zero). -/
def extractTokens : Option RawUsage → Option TokenUsage
  | none => none
  | some usage =>
      some { input := usage.input_tokens.getD 0,
             output := usage.output_tokens.getD 0,
             cacheRead :=
               match usage.cache_read_input_tokens with
               | some n => if n ≠ 0 then some n else none
               | none => none,
             cacheWrite :=
               match usage.cache_creation_input_tokens with
               | some n => if n ≠ 0 then some n else none
               | none => none }

/-- Events contributed by one assistant content block. -/
def assistantBlockEvents (sessionId : String) (agentId : Option String)
    (timestamp : String) (tokens : Option TokenUsage) :
    RawContentBlock → List PixelEvent
  | .thinking _ => [createActivityEvent sessionId agentId timestamp "thinking" none]
  | .text t =>
      if t = "(no content)" then
        [createActivityEvent sessionId agentId timestamp "thinking" none]
      else
        [createActivityEvent sessionId agentId timestamp "responding" tokens]
  | .tool_use id name input =>
      [buildToolStartedEvent sessionId agentId timestamp id name input]
      ++ (if name = "Task" then
            [createAgentEvent sessionId (some id) timestamp "spawned"
              (some ((truthyStr input.subagent_type).getD "general"))]
          else [])
      ++ (if name = "AskUserQuestion" then
            [createActivityEvent sessionId agentId timestamp "waiting" none]
          else [])
  | .tool_result _ _ _ => []

/-- `handleAssistant` of the Claude Code adapter: requires truthy content
of array shape, then folds the blocks. -/
def handleAssistant (raw : RawJsonlEvent) (sessionId : String)
    (agentId : Option String) (timestamp : String) : List PixelEvent :=
  match raw.message with
  | none => []
  | some message =>
      match message.content with
      | none => []
      | some (.str _) => []
      | some (.blocks blocks) =>
          blocks.flatMap
            (assistantBlockEvents sessionId agentId timestamp
              (extractTokens message.usage))

/-- Events contributed by one user-side block in `tool_result` mode:
status `error` iff `is_error === true` or the string content contains the
literal substring `"Error"`; an extra `Error{warning}` event follows in
the error case. -/
def userResultBlockEvents (sessionId : String) (agentId : Option String)
    (timestamp : String) : RawContentBlock → List PixelEvent
  | .tool_result tool_use_id c ie =>
      let isError : Bool := isErrorHeuristic c ie
      [createToolEvent sessionId agentId timestamp "other" none
        (if isError then "error" else "completed") tool_use_id none]
      ++ (if isError then
            [createErrorEvent sessionId agentId timestamp "warning"]
          else [])
  | _ => []

/-- `handleUser` of the Claude Code adapter: string content is wrapped as a
single text block; `tool_result` records produce tool-status events, other
user records produce a `user_prompt` only when some text block has
non-whitespace text. -/
def handleUser (raw : RawJsonlEvent) (sessionId : String)
    (agentId : Option String) (timestamp : String) : List PixelEvent :=
  match raw.message with
  | none => []
  | some message =>
      if contentTruthy message.content then
        let content : List RawContentBlock :=
          match message.content with
          | some (.str s) => [.text s]
          | some (.blocks bs) => bs
          | none => []
        if raw.userType = some "tool_result" then
          content.flatMap (userResultBlockEvents sessionId agentId timestamp)
        else
          if content.any (fun b =>
              match b with
              | .text t => decide (jsTrim t ≠ "")
              | _ => false) then
            [createActivityEvent sessionId agentId timestamp "user_prompt" none]
          else []
      else []

/-- `claudeCodeAdapter`: dispatch on the record's top-level `type`;
`system`, `progress`, `queue-operation` and unknown kinds are inert.
`now` models `new Date().toISOString()` used when the record has no truthy
timestamp. -/
def claudeCodeAdapter (now : String) (raw : RawJsonlEvent) :
    List PixelEvent :=
  let sessionId := raw._sessionId
  let agentId := truthyStr raw._agentId
  let timestamp := (truthyStr raw.timestamp).getD now
  match raw.type with
  | "assistant" => handleAssistant raw sessionId agentId timestamp
  | "user" => handleUser raw sessionId agentId timestamp
  | "summary" => [createSummaryEvent sessionId timestamp]
  | "system" => []
  | "progress" => []
  | "queue-operation" => []
  | _ => []

end ClaudeCode

/-! ## Antigravity adapter (`src/adapters/antigravity.ts`, first unit) -/

namespace Antigravity

/-- `ANTIGRAVITY_TOOL_MAP`. -/
def ANTIGRAVITY_TOOL_MAP : String → Option (String × String)
  | "readFile" => some ("file_read", "read")
  | "writeFile" => some ("file_write", "write")
  | "editFile" => some ("file_write", "edit")
  | "runCommand" => some ("terminal", "bash")
  | "grepSearch" => some ("search", "grep")
  | "globSearch" => some ("search", "glob")
  | "findByName" => some ("search", "find")
  | "searchWeb" => some ("search", "web_search")
  | "readUrl" => some ("search", "web_fetch")
  | "spawnAgent" => some ("spawn_agent", "task")
  | "listTasks" => some ("plan", "todo")
  | "askUser" => some ("communicate", "ask_user")
  | _ => none

/-- `extractSafeContext` of the Antigravity adapter.  Path-like fields are
reduced to a basename; for `runCommand`/`Bash` the function returns
`input.CommandLine || input.command || 'terminal'` — the raw command
line; for `searchWeb`/`WebSearch` the fixed string `"web search"`. -/
def extractSafeContext (toolName : String) (input : ToolInput) :
    Option String :=
  if (truthyStr input.file_path).isSome then toBasename input.file_path
  else if (truthyStr input.target_file).isSome then
    toBasename input.target_file
  else if (truthyStr input.TargetFile).isSome then
    toBasename input.TargetFile
  else if (truthyStr input.AbsolutePath).isSome then
    toBasename input.AbsolutePath
  else if toolName = "runCommand" ∨ toolName = "Bash" then
    some ((truthyStr input.CommandLine).getD
      ((truthyStr input.command).getD "terminal"))
  else if toolName = "searchWeb" ∨ toolName = "WebSearch" then
    some "web search"
  else none

/-- `buildToolStartedEvent` of the Antigravity adapter. -/
def buildToolStartedEvent (sessionId : String) (agentId : Option String)
    (timestamp id name : String) (input : ToolInput) : PixelEvent :=
  let mapping := (ANTIGRAVITY_TOOL_MAP name).getD ("other", name)
  createToolEvent sessionId agentId timestamp mapping.1 (some mapping.2)
    "started" id (extractSafeContext name input)

/-- `extractTokens` of the Antigravity adapter (no cache fields). -/
def extractTokens : Option RawUsage → Option TokenUsage
  | none => none
  | some usage =>
      some { input := usage.input_tokens.getD 0,
             output := usage.output_tokens.getD 0 }

/-- Events contributed by one model content block. -/
def modelBlockEvents (sessionId : String) (agentId : Option String)
    (timestamp : String) (usage : Option RawUsage) :
    RawContentBlock → List PixelEvent
  | .thinking _ => [createActivityEvent sessionId agentId timestamp "thinking" none]
  | .text t =>
      if t ≠ "" ∧ jsTrim t ≠ "" then
        [createActivityEvent sessionId agentId timestamp "responding"
          (extractTokens usage)]
      else []
  | .tool_use id name input =>
      [buildToolStartedEvent sessionId agentId timestamp id name input]
      ++ (if name = "spawnAgent" ∨ name = "Task" then
            [createAgentEvent sessionId (some id) timestamp "spawned"
              (some ((truthyStr input.type).getD "general"))]
          else [])
  | .tool_result _ _ _ => []

/-- `handleModel` of the Antigravity adapter: skips a missing message and
non-array content. -/
def handleModel (raw : RawJsonlEvent) (sessionId : String)
    (agentId : Option String) (timestamp : String) : List PixelEvent :=
  match raw.message with
  | none => []
  | some message =>
      match message.content with
      | some (.blocks blocks) =>
          blocks.flatMap
            (modelBlockEvents sessionId agentId timestamp message.usage)
      | _ => []

/-- Events contributed by one user-side block in `tool_result` mode;
status `error` iff `block.is_error` is truthy or the string content
contains the literal substring `"Error"`. -/
def userResultBlockEvents (sessionId : String) (agentId : Option String)
    (timestamp : String) : RawContentBlock → List PixelEvent
  | .tool_result tool_use_id c ie =>
      let isError : Bool := isErrorHeuristic c ie
      [createToolEvent sessionId agentId timestamp "other" none
        (if isError then "error" else "completed") tool_use_id none]
      ++ (if isError then
            [createErrorEvent sessionId agentId timestamp "warning"]
          else [])
  | _ => []

/-- `handleUser` of the Antigravity adapter: `tool_result` records map
their array blocks (non-array content degrades to an empty list); any
other user record with truthy content emits one `user_prompt`. -/
def handleUser (raw : RawJsonlEvent) (sessionId : String)
    (agentId : Option String) (timestamp : String) : List PixelEvent :=
  match raw.message with
  | none => []
  | some message =>
      if contentTruthy message.content then
        if raw.userType = some "tool_result" then
          let contentList : List RawContentBlock :=
            match message.content with
            | some (.blocks bs) => bs
            | _ => []
          contentList.flatMap
            (userResultBlockEvents sessionId agentId timestamp)
        else
          [createActivityEvent sessionId agentId timestamp "user_prompt" none]
      else []

/-- `antigravityAdapter`: dispatch on the record's top-level `type`
(`assistant`/`model` both route to `handleModel`). -/
def antigravityAdapter (now : String) (raw : RawJsonlEvent) :
    List PixelEvent :=
  let sessionId := raw._sessionId
  let agentId := truthyStr raw._agentId
  let timestamp := (truthyStr raw.timestamp).getD now
  match raw.type with
  | "assistant" => handleModel raw sessionId agentId timestamp
  | "model" => handleModel raw sessionId agentId timestamp
  | "user" => handleUser raw sessionId agentId timestamp
  | "summary" => [createSummaryEvent sessionId timestamp]
  | _ => []

end Antigravity

/-! ## Adapter claim theorems -/

@[simp] theorem truthyStr_none : truthyStr none = none := rfl

theorem truthyStr_truthyStr (o : Option String) :
    truthyStr (truthyStr o) = truthyStr o := by
  cases o with
  | none => rfl
  | some s => by_cases h : s = "" <;> simp [truthyStr, h]

theorem truthyStr_getD_ne_empty (o : Option String) (d : String)
    (hd : d ≠ "") : (truthyStr o).getD d ≠ "" := by
  cases o with
  | none => simpa [truthyStr] using hd
  | some s => by_cases h : s = "" <;> simp [truthyStr, h, hd]

theorem truthyStr_some_ne {v : String} (hv : v ≠ "") :
    truthyStr (some v) = some v := by
  simp [truthyStr, hv]

/-- C2 counterexample: the Antigravity adapter copies the raw command line
of a `runCommand` tool-use record into the emitted Tool event's `context`
field (the repository's own test asserts this behavior), contradicting the
claim that the command-line text never appears in any output field. -/
theorem c2_command_leak_counterexample :
    Antigravity.antigravityAdapter "2026-02-01T00:00:00Z"
      { type := "model", _sessionId := "sess",
        message := some { content := some (.blocks
          [.tool_use "t3" "runCommand"
            { CommandLine := some "ls -la /Users/sensitive" }]) } }
      = [PixelEvent.tool "sess" none "2026-02-01T00:00:00Z" "terminal"
          (some "bash") "started" "t3"
          (some "ls -la /Users/sensitive")] := by
  decide

/-- C2 (amended): command-line privacy holds for the Claude Code adapter —
adapting a `Bash` tool-use record yields exactly one Tool event whose only
context is the user-supplied one-line description (or none), with no
dependence on the `command` field; the Antigravity adapter instead copies
the raw command line: for a `runCommand` tool-use record with no truthy
path-like input fields the emitted context is
`CommandLine || command || 'terminal'`. -/
theorem c2_amended_command_context (now sid id : String)
    (aid ts : Option String) (input agInput : ToolInput)
    (h1 : truthyStr agInput.file_path = none)
    (h2 : truthyStr agInput.target_file = none)
    (h3 : truthyStr agInput.TargetFile = none)
    (h4 : truthyStr agInput.AbsolutePath = none) :
    ClaudeCode.claudeCodeAdapter now
      { type := "assistant", timestamp := ts, _sessionId := sid,
        _agentId := aid,
        message := some { content := some (.blocks
          [.tool_use id "Bash" input]) } }
      = [PixelEvent.tool sid (truthyStr aid) ((truthyStr ts).getD now)
          "terminal" (some "bash") "started" id
          (truthyStr input.description)] ∧
    Antigravity.antigravityAdapter now
      { type := "model", timestamp := ts, _sessionId := sid,
        _agentId := aid,
        message := some { content := some (.blocks
          [.tool_use id "runCommand" agInput]) } }
      = [PixelEvent.tool sid (truthyStr aid) ((truthyStr ts).getD now)
          "terminal" (some "bash") "started" id
          (some ((truthyStr agInput.CommandLine).getD
            ((truthyStr agInput.command).getD "terminal")))] := by
  constructor
  · simp [ClaudeCode.claudeCodeAdapter, ClaudeCode.handleAssistant,
      ClaudeCode.assistantBlockEvents, ClaudeCode.buildToolStartedEvent,
      ClaudeCode.TOOL_TO_CATEGORY, ClaudeCode.extractSafeContext,
      createToolEvent, truthyStr_truthyStr, truthyStr_some_ne]
  · have hinner : (truthyStr agInput.command).getD "terminal" ≠ "" :=
      truthyStr_getD_ne_empty _ _ (by decide)
    have houter : (truthyStr agInput.CommandLine).getD
        ((truthyStr agInput.command).getD "terminal") ≠ "" :=
      truthyStr_getD_ne_empty _ _ hinner
    simp [Antigravity.antigravityAdapter, Antigravity.handleModel,
      Antigravity.modelBlockEvents, Antigravity.buildToolStartedEvent,
      Antigravity.ANTIGRAVITY_TOOL_MAP, Antigravity.extractSafeContext,
      createToolEvent, truthyStr_truthyStr, truthyStr_some_ne houter,
      h1, h2, h3, h4]
    decide

/-- Witness for C2 (amended) at concrete inputs: the Claude Code `Bash`
context is the description, the Antigravity `runCommand` context is the
command line. -/
theorem c2_amended_command_context_witness :
    truthyStr ({ CommandLine := some "ls -la" } : ToolInput).file_path
      = none ∧
    ClaudeCode.claudeCodeAdapter "T"
      { type := "assistant", timestamp := none, _sessionId := "s",
        _agentId := none,
        message := some { content := some (.blocks
          [.tool_use "t1" "Bash"
            { command := some "rm -rf /tmp/x",
              description := some "clean tmp" }]) } }
      = [PixelEvent.tool "s" (truthyStr none) ((truthyStr none).getD "T")
          "terminal" (some "bash") "started" "t1"
          (truthyStr (some "clean tmp"))] ∧
    Antigravity.antigravityAdapter "T"
      { type := "model", timestamp := none, _sessionId := "s",
        _agentId := none,
        message := some { content := some (.blocks
          [.tool_use "t1" "runCommand"
            ({ CommandLine := some "ls -la" } : ToolInput)]) } }
      = [PixelEvent.tool "s" (truthyStr none) ((truthyStr none).getD "T")
          "terminal" (some "bash") "started" "t1"
          (some ((truthyStr (some "ls -la")).getD
            ((truthyStr none).getD "terminal")))] := by
  refine ⟨rfl, ?_, ?_⟩
  · exact (c2_amended_command_context "T" "s" "t1" none none
      { command := some "rm -rf /tmp/x", description := some "clean tmp" }
      { CommandLine := some "ls -la" } rfl rfl rfl rfl).1
  · exact (c2_amended_command_context "T" "s" "t1" none none
      { command := some "rm -rf /tmp/x", description := some "clean tmp" }
      { CommandLine := some "ls -la" } rfl rfl rfl rfl).2

/-- C3: error-classification heuristic — for a `tool_result` record, each
adapter emits a Tool event with status `error` iff the explicit `is_error`
flag is set or the textual result content contains the literal substring
`"Error"` (plus a companion `Error{warning}` event exactly in that case),
and status `completed` otherwise. -/
theorem c3_error_heuristic (now sid tid : String) (aid ts : Option String)
    (c : Option String) (ie : Option Bool) :
    (isErrorHeuristic c ie = true ↔
      (ie = some true ∨ ∃ s, c = some s ∧ jsIncludes s "Error" = true)) ∧
    ClaudeCode.claudeCodeAdapter now
      { type := "user", timestamp := ts, userType := some "tool_result",
        _sessionId := sid, _agentId := aid,
        message := some { content := some (.blocks
          [.tool_result tid c ie]) } }
      = (if isErrorHeuristic c ie then
          [PixelEvent.tool sid (truthyStr aid) ((truthyStr ts).getD now)
            "other" none "error" tid none,
           PixelEvent.error sid (truthyStr aid) ((truthyStr ts).getD now)
            "warning"]
        else
          [PixelEvent.tool sid (truthyStr aid) ((truthyStr ts).getD now)
            "other" none "completed" tid none]) ∧
    Antigravity.antigravityAdapter now
      { type := "user", timestamp := ts, userType := some "tool_result",
        _sessionId := sid, _agentId := aid,
        message := some { content := some (.blocks
          [.tool_result tid c ie]) } }
      = (if isErrorHeuristic c ie then
          [PixelEvent.tool sid (truthyStr aid) ((truthyStr ts).getD now)
            "other" none "error" tid none,
           PixelEvent.error sid (truthyStr aid) ((truthyStr ts).getD now)
            "warning"]
        else
          [PixelEvent.tool sid (truthyStr aid) ((truthyStr ts).getD now)
            "other" none "completed" tid none]) := by
  refine ⟨?_, ?_, ?_⟩
  · cases ie with
    | none => cases c <;> simp [isErrorHeuristic]
    | some b => cases b <;> cases c <;> simp [isErrorHeuristic]
  · cases hb : isErrorHeuristic c ie <;>
      simp [ClaudeCode.claudeCodeAdapter, ClaudeCode.handleUser,
        ClaudeCode.userResultBlockEvents, contentTruthy, createToolEvent,
        createErrorEvent, truthyStr_truthyStr, hb]
  · cases hb : isErrorHeuristic c ie <;>
      simp [Antigravity.antigravityAdapter, Antigravity.handleUser,
        Antigravity.userResultBlockEvents, contentTruthy, createToolEvent,
        createErrorEvent, truthyStr_truthyStr, hb]

/-- C4: adapter totality — the Claude Code adapter returns the empty event
array for every record lacking an actionable payload: an unrecognized
top-level kind, a recognized-but-inert kind (`system`, `progress`,
`queue-operation`), a missing message, absent content, empty-string
content, an empty block array, or (for assistant records) content of
non-array shape.  The adapter is a total function over the whole
`RawJsonlEvent` type — every optional field may be absent — so no
structurally-incomplete record makes it raise. -/
theorem c4_adapter_totality (now : String) (raw : RawJsonlEvent)
    (h : (raw.type ≠ "assistant" ∧ raw.type ≠ "user" ∧
          raw.type ≠ "summary") ∨
      ((raw.type = "assistant" ∨ raw.type = "user") ∧
        (raw.message = none ∨
          ∃ m, raw.message = some m ∧
            (m.content = none ∨ m.content = some (.str "") ∨
             m.content = some (.blocks [])))) ∨
      (raw.type = "assistant" ∧
        ∃ m s, raw.message = some m ∧ m.content = some (.str s))) :
    ClaudeCode.claudeCodeAdapter now raw = [] := by
  rcases h with ⟨h1, h2, h3⟩ | ⟨hty, hm⟩ | ⟨hty, m, s, hm, hc⟩
  · simp only [ClaudeCode.claudeCodeAdapter]
    split <;> simp_all
  · rcases hm with hm | ⟨m, hm, hc⟩
    · rcases hty with hty | hty <;>
        simp [ClaudeCode.claudeCodeAdapter, hty, ClaudeCode.handleAssistant,
          ClaudeCode.handleUser, hm]
    · rcases hc with hc | hc | hc <;> rcases hty with hty | hty <;>
        simp [ClaudeCode.claudeCodeAdapter, hty, ClaudeCode.handleAssistant,
          ClaudeCode.handleUser, hm, hc, contentTruthy]
  · simp [ClaudeCode.claudeCodeAdapter, hty, ClaudeCode.handleAssistant,
      hm, hc]

/-- Witness for C4: a `progress` record (a recognized-but-inert kind)
yields the empty event array. -/
theorem c4_adapter_totality_witness :
    (("progress" : String) ≠ "assistant" ∧ ("progress" : String) ≠ "user" ∧
      ("progress" : String) ≠ "summary") ∧
    ClaudeCode.claudeCodeAdapter "T"
      { type := "progress", _sessionId := "s" } = [] := by
  refine ⟨⟨by decide, by decide, by decide⟩, ?_⟩
  exact c4_adapter_totality "T" { type := "progress", _sessionId := "s" }
    (Or.inl ⟨by decide, by decide, by decide⟩)
